import Mathlib

/-!
Shallow embedding of `src/src/base/abci/abcFxu.c` (ABC's interface with the
fast-extract package) and proofs about it.

The file models the four functions of the source file:
  - `Abc_NtkFastExtract`   (driver, lines 53-92)
  - `Abc_NtkFxuCheck`      (validator, lines 106-126)
  - `Abc_NtkFxuCollectInfo`(context builder, lines 139-164)
  - `Abc_NtkFxuReconstruct`(reconstructor, lines 204-253)

External collaborators (`Abc_NtkToSop`, `Abc_NtkCleanup`, `Fxu_FastExtract`)
are not part of the repository; the driver is parametrised over them, and a
concrete cleanup model (from the spec and the driver's own comment) is
provided where a claim needs one.

C assertion failures and null-pointer dereferences are modelled by `Option`:
a function returns `none` exactly when the C code would assert-fail or
dereference a null pointer.
-/

namespace AbcFxu

/-- A sum-of-products cover.  Opaque to this core: the only operations the
source applies are `Abc_SopGetVarNum` and `Abc_SopGetCubeNum`; the `tag`
field keeps distinct covers distinguishable as whole values (covers are
swappable only as a whole). -/
structure Sop where
  varNum : Nat
  cubeNum : Nat
  tag : Nat
deriving DecidableEq, Repr

/-- A network object (`Abc_Obj_t`): a stable identifier, a flag telling
whether it is an internal logic node (`Abc_ObjIsNode`), an ordered fanin
list of (target id, complemented attribute) pairs, and an optional cover
(`pData`, null for objects without a function). -/
structure Obj where
  id : Nat
  isNode : Bool
  fanins : List (Nat × Bool)
  pData : Option Sop
deriving DecidableEq, Repr

/-- A network (`Abc_Ntk_t`): objects indexed by identifier, `none` marking a
hole (a removed identifier slot).  `objs.length` plays the role of
`Abc_NtkObjNumMax`. -/
structure Ntk where
  objs : List (Option Obj)
deriving DecidableEq, Repr

/-- `Abc_NtkObjNumMax`: one beyond the largest used identifier. -/
def Abc_NtkObjNumMax (ntk : Ntk) : Nat :=
  ntk.objs.length

/-- `Abc_NtkObj`: fetch the object with identifier `i`; `none` when the slot
is a hole or out of range (a C null pointer). -/
def Abc_NtkObj (ntk : Ntk) (i : Nat) : Option Obj :=
  match ntk.objs.get? i with
  | some (some o) => some o
  | _ => none

/-- Replace the object stored at identifier `i` (the in-place mutation of a
node, made explicit). -/
def Ntk.setObj (ntk : Ntk) (i : Nat) (o : Obj) : Ntk :=
  ⟨ntk.objs.set i (some o)⟩

/-- `Abc_ObjFaninId`: the identifier referenced by fanin slot `i`. -/
def Abc_ObjFaninId (node : Obj) (i : Nat) : Nat :=
  ((node.fanins.get? i).getD (0, false)).1

/-- `Abc_ObjFaninC`: the complemented attribute of fanin slot `i`. -/
def Abc_ObjFaninC (node : Obj) (i : Nat) : Bool :=
  ((node.fanins.get? i).getD (0, false)).2

/-- `Abc_SopGetVarNum` (external accessor): number of variables of a cover. -/
def Abc_SopGetVarNum (s : Sop) : Nat :=
  s.varNum

/-- `Abc_SopGetCubeNum` (external accessor): number of cubes of a cover. -/
def Abc_SopGetCubeNum (s : Sop) : Nat :=
  s.cubeNum

/-!  ## Validator: `Abc_NtkFxuCheck`, lines 106-126

The C code iterates over internal logic nodes (`Abc_NtkForEachNode`); for
each fanin slot `i` it returns 0 if `i < 2` and the fanin is complemented,
and returns 0 if any other slot `k` references the same target object
(`pFanin1 == pFanin2` compares target pointers, ignoring polarity).  The
early-`return 0` loops are rendered as boolean `all`s over the index
ranges, which compute the same result. -/

/-- One node's body of the validator loop: `true` iff the node violates
neither rule of `Abc_NtkFxuCheck`. -/
def Abc_NtkFxuCheckObj (node : Obj) : Bool :=
  (List.range node.fanins.length).all fun i =>
    (!(decide (i < 2) && Abc_ObjFaninC node i)) &&
    ((List.range node.fanins.length).all fun k =>
      decide (i = k) || !(decide (Abc_ObjFaninId node i = Abc_ObjFaninId node k)))

/-- `Abc_NtkFxuCheck`: 1 iff no logic node has a complemented fanin in one
of the first two slots nor two slots referencing the same target. -/
def Abc_NtkFxuCheck (ntk : Ntk) : Bool :=
  (List.range ntk.objs.length).all fun i =>
    match ntk.objs.get? i with
    | some (some node) => !node.isNode || Abc_NtkFxuCheckObj node
    | _ => true

/-- Spec-side predicate: the node has an inverted fanin in positional slot 0
or 1, or two distinct fanin slots referencing the same target node. -/
def NodeViolation (node : Obj) : Prop :=
  (∃ i e, node.fanins.get? i = some e ∧ i < 2 ∧ e.2 = true) ∨
  (∃ i k e1 e2, i ≠ k ∧ node.fanins.get? i = some e1 ∧
    node.fanins.get? k = some e2 ∧ e1.1 = e2.1)

/-- Spec-side predicate: some logic node of the network violates the
validator's rules. -/
def NtkViolation (ntk : Ntk) : Prop :=
  ∃ i node, ntk.objs.get? i = some (some node) ∧ node.isNode = true ∧
    NodeViolation node

/-!  ## Extraction context: `Fxu_Data_t`

Only the fields the source file touches are modelled.  `vSops`/`vFanins`
are the original collections (indexed by identifier, `none` for ineligible
or absent identifiers); `vSopsNew`/`vFaninsNew` are the updated collections
over the extended domain.  Updated fanin lists are plain identifier lists
(`Vec_Int_t`), attached non-complemented by `Abc_ObjAddFanin`. -/

structure FxuData where
  vSops : List (Option Sop)
  vFanins : List (Option (List (Nat × Bool)))
  vSopsNew : List (Option Sop)
  vFaninsNew : List (Option (List Nat))
  nNodesExt : Nat
  nNodesOld : Nat
  nNodesNew : Nat
deriving DecidableEq, Repr

/-!  ## Builder: `Abc_NtkFxuCollectInfo`, lines 139-164 -/

/-- The eligibility test of the collection loop (lines 156-159): the node's
cover has at least 2 variables and at least 1 cube.  The C code applies the
accessors to `pNode->pData` directly (every logic node of an SOP network
carries a cover); a node without a cover cannot pass the test. -/
def fxuEligible (node : Obj) : Bool :=
  match node.pData with
  | some s => decide (2 ≤ Abc_SopGetVarNum s) && decide (1 ≤ Abc_SopGetCubeNum s)
  | none => false

/-- The `vSops` slot the collection loop (lines 154-162) leaves for one
object slot: the node's cover when the slot holds an eligible logic node,
null otherwise (non-nodes and holes are skipped by `Abc_NtkForEachNode`,
ineligible nodes by the two `continue`s). -/
def fxuSopEntry (o : Option Obj) : Option Sop :=
  match o with
  | some node => if node.isNode && fxuEligible node then node.pData else none
  | none => none

/-- The `vFanins` slot the collection loop leaves for one object slot
(line 161 records the node's live fanin list). -/
def fxuFaninsEntry (o : Option Obj) : Option (List (Nat × Bool)) :=
  match o with
  | some node => if node.isNode && fxuEligible node then some node.fanins else none
  | none => none

/-- `Abc_NtkFxuCollectInfo`: fill the four parallel collections.  The
original collections are sized `Abc_NtkObjNumMax`, the updated ones
`Abc_NtkObjNumMax + nNodesExt` with every slot null; each eligible logic
node's cover and fanin list are recorded under its own identifier
(lines 149-163). -/
def Abc_NtkFxuCollectInfo (ntk : Ntk) (nNodesExt : Nat) : FxuData :=
  { vSops := ntk.objs.map fxuSopEntry
    vFanins := ntk.objs.map fxuFaninsEntry
    vSopsNew := List.replicate (Abc_NtkObjNumMax ntk + nNodesExt) none
    vFaninsNew := List.replicate (Abc_NtkObjNumMax ntk + nNodesExt) none
    nNodesExt := nNodesExt
    nNodesOld := Abc_NtkObjNumMax ntk
    nNodesNew := 0 }

/-!  ## Reconstructor: `Abc_NtkFxuReconstruct`, lines 204-253

`Option Ntk` result: `none` models a C assertion failure or null-pointer
dereference. -/

/-- `Abc_NtkCreateNode`: append a fresh logic node (no fanins, no cover)
with the next identifier, returning the grown network and the node. -/
def Abc_NtkCreateNode (ntk : Ntk) : Ntk × Obj :=
  let node : Obj := ⟨ntk.objs.length, true, [], none⟩
  (⟨ntk.objs ++ [some node]⟩, node)

/-- `Abc_ObjRemoveFanins`: drop all fanin edges of a node. -/
def Abc_ObjRemoveFanins (node : Obj) : Obj :=
  { node with fanins := [] }

/-- `Abc_ObjAddFanin`: append a (non-complemented) fanin edge. -/
def Abc_ObjAddFanin (node : Obj) (faninId : Nat) : Obj :=
  { node with fanins := node.fanins ++ [(faninId, false)] }

/-- The create loop (lines 212-217): create `m` nodes, asserting that each
receives the expected consecutive identifier (`assert(i == pNode->Id)`). -/
def fxuCreateLoop : Ntk → Nat → Nat → Option Ntk
  | ntk, _, 0 => some ntk
  | ntk, i, m + 1 =>
    let created := Abc_NtkCreateNode ntk
    if created.2.id = i then fxuCreateLoop created.1 (i + 1) m else none

/-- The inner fanin-attachment loop (lines 230-234 and 245-249): for each
identifier of the updated fanin list, fetch the fanin object and attach the
edge; a null fanin object is a crash (`none`). -/
def fxuAddFanins : Ntk → Nat → List Nat → Option Ntk
  | ntk, _, [] => some ntk
  | ntk, nodeId, fid :: rest =>
    match Abc_NtkObj ntk fid, Abc_NtkObj ntk nodeId with
    | some _, some node =>
      fxuAddFanins (ntk.setObj nodeId (Abc_ObjAddFanin node fid)) nodeId rest
    | _, _ => none

/-- The old-node update loop (lines 219-237), processing identifiers
`i, i+1, ..., i+m-1`: a null updated fanin list skips the node; otherwise
the node's fanins are removed, the new ones attached in order, and the
cover replaced by the updated cover, which is asserted non-null
(line 236). -/
def fxuUpdateOldLoop (p : FxuData) : Ntk → Nat → Nat → Option Ntk
  | ntk, _, 0 => some ntk
  | ntk, i, m + 1 =>
    match p.vFaninsNew.get? i with
    | some none => fxuUpdateOldLoop p ntk (i + 1) m
    | some (some fl) =>
      match Abc_NtkObj ntk i with
      | some node =>
        match fxuAddFanins (ntk.setObj i (Abc_ObjRemoveFanins node)) i fl with
        | some ntk2 =>
          match p.vSopsNew.get? i, Abc_NtkObj ntk2 i with
          | some (some s), some node2 =>
            fxuUpdateOldLoop p (ntk2.setObj i { node2 with pData := some s }) (i + 1) m
          | _, _ => none
        | none => none
      | none => none
    | none => none

/-- The new-node setup loop (lines 239-252), processing identifiers
`i, ..., i+m-1`: the updated fanin list is read without a null check
(line 244), so a null entry is a crash; fanins are attached in order and
the cover installed, asserted non-null (line 251). -/
def fxuSetupNewLoop (p : FxuData) : Ntk → Nat → Nat → Option Ntk
  | ntk, _, 0 => some ntk
  | ntk, i, m + 1 =>
    match p.vFaninsNew.get? i with
    | some (some fl) =>
      match Abc_NtkObj ntk i with
      | some _ =>
        match fxuAddFanins ntk i fl with
        | some ntk2 =>
          match p.vSopsNew.get? i, Abc_NtkObj ntk2 i with
          | some (some s), some node2 =>
            fxuSetupNewLoop p (ntk2.setObj i { node2 with pData := some s }) (i + 1) m
          | _, _ => none
        | none => none
      | none => none
    | _ => none

/-- `Abc_NtkFxuReconstruct`: entry assertion
`assert(p->vFanins->nSize < p->vFaninsNew->nSize)` (line 210), then the
three phases in order: create the new nodes, rewire the updated old nodes,
wire the new nodes. -/
def Abc_NtkFxuReconstruct (ntk : Ntk) (p : FxuData) : Option Ntk :=
  if p.vFanins.length < p.vFaninsNew.length then
    match fxuCreateLoop ntk p.vFanins.length p.nNodesNew with
    | some ntk1 =>
      match fxuUpdateOldLoop p ntk1 0 p.vFanins.length with
      | some ntk2 => fxuSetupNewLoop p ntk2 p.vFanins.length p.nNodesNew
      | none => none
    | none => none
  else none

/-!  ## Driver: `Abc_NtkFastExtract`, lines 53-92

Parametrised over the three external collaborators:
  - `toSop` models `Abc_NtkToSop` (lines 64-68): `none` means the
    conversion failed, in which case the driver returns 0;
  - `cleanup` models `Abc_NtkCleanup` (line 76), run after the validator
    and before the engine;
  - `engine` models `Fxu_FastExtract` (line 80): it may rewrite the
    context and returns the improvement count.
The final `Abc_NtkCheck` (line 85) only prints a warning and does not
change the result or the network, so it is not modelled.  The result is
`none` when reconstruction crashes, otherwise `some (changed, network)`. -/
def Abc_NtkFastExtract (toSop : Ntk → Option Ntk) (cleanup : Ntk → Ntk)
    (engine : FxuData → FxuData × Int) (ntk : Ntk) (nNodesExt : Nat) :
    Option (Bool × Ntk) :=
  match toSop ntk with
  | none => some (false, ntk)
  | some ntk1 =>
    if Abc_NtkFxuCheck ntk1 then
      let ntk2 := cleanup ntk1
      let pref := engine (Abc_NtkFxuCollectInfo ntk2 nNodesExt)
      if 0 < pref.2 then
        match Abc_NtkFxuReconstruct ntk2 pref.1 with
        | some ntk3 => some (true, ntk3)
        | none => none
      else
        some (false, ntk2)
    else
      some (false, ntk1)

/-- Modelled from the spec: `Abc_NtkCleanup` is an external collaborator
(general network cleanup / dead-node sweeping, excluded from the visible
source); per the driver's own comment at line 75, the sweep removes useless
nodes, i.e. logic nodes referenced by no live object's fanin list.  The
identifier slot becomes a hole; identifiers of surviving objects are
preserved. -/
def Abc_NtkCleanup (ntk : Ntk) : Ntk :=
  ⟨ntk.objs.map fun o =>
    match o with
    | some node =>
      if node.isNode &&
          !(ntk.objs.any fun o2 =>
            match o2 with
            | some n2 => n2.fanins.any fun e => decide (e.1 = node.id)
            | none => false) then
        none
      else
        some node
    | none => none⟩

/-!  ## Concrete example networks and engines (used by witnesses and
counterexamples) -/

/-- The spec's scenario network: primary inputs B (id 0) and C (id 1), and
logic node A (id 2) with fanins `[B, C]` and a 2-variable 3-cube cover. -/
def exNtk3 : Ntk :=
  ⟨[some ⟨0, false, [], none⟩,
    some ⟨1, false, [], none⟩,
    some ⟨2, true, [(0, false), (1, false)], some ⟨2, 3, 0⟩⟩]⟩

/-- An engine result on `exNtk3` with one new node (id 3): node A is rewired
to fanins `[3]` with cover `f`, and the new node 3 gets fanins `[B, C]` and
cover `g`. -/
def pEx : FxuData :=
  let p := Abc_NtkFxuCollectInfo exNtk3 1
  { p with nNodesNew := 1
           vFaninsNew := (p.vFaninsNew.set 2 (some [3])).set 3 (some [0, 1])
           vSopsNew := (p.vSopsNew.set 2 (some ⟨1, 1, 7⟩)).set 3 (some ⟨2, 2, 8⟩) }

/-- The network `Abc_NtkFxuReconstruct exNtk3 pEx` produces. -/
def exNtk3Post : Ntk :=
  ⟨[some ⟨0, false, [], none⟩,
    some ⟨1, false, [], none⟩,
    some ⟨2, true, [(3, false)], some ⟨1, 1, 7⟩⟩,
    some ⟨3, true, [(0, false), (1, false)], some ⟨2, 2, 8⟩⟩]⟩

/-- Like `exNtk3`, with a primary output (id 3) fed by node A, plus a
dangling logic node (id 4) that no fanin list references. -/
def exNtkD : Ntk :=
  ⟨[some ⟨0, false, [], none⟩,
    some ⟨1, false, [], none⟩,
    some ⟨2, true, [(0, false), (1, false)], some ⟨2, 3, 0⟩⟩,
    some ⟨3, false, [(2, false)], none⟩,
    some ⟨4, true, [], some ⟨0, 1, 0⟩⟩]⟩

/-- `exNtkD` after the dead-node sweep: the dangling node's slot has become
a hole. -/
def exNtkDClean : Ntk :=
  ⟨[some ⟨0, false, [], none⟩,
    some ⟨1, false, [], none⟩,
    some ⟨2, true, [(0, false), (1, false)], some ⟨2, 3, 0⟩⟩,
    some ⟨3, false, [(2, false)], none⟩,
    none]⟩

/-- A network failing validation: node 1 has duplicated fanins `[0, 0]`. -/
def exNtkBad : Ntk :=
  ⟨[some ⟨0, false, [], none⟩,
    some ⟨1, true, [(0, false), (0, false)], some ⟨2, 2, 0⟩⟩]⟩

/-- A conforming engine that rewires only existing node 2 (no new nodes)
and reports an improvement. -/
def engineRewireOld (pd : FxuData) : FxuData × Int :=
  ({ pd with vFaninsNew := pd.vFaninsNew.set 2 (some [0])
             vSopsNew := pd.vSopsNew.set 2 (some ⟨1, 1, 5⟩)
             nNodesNew := 0 }, 1)

/-- An engine result on `exNtk3` recording an updated fanin list for node 2
but a null updated cover there. -/
def pBadOldCover : FxuData :=
  let p := Abc_NtkFxuCollectInfo exNtk3 1
  { p with nNodesNew := 0, vFaninsNew := p.vFaninsNew.set 2 (some [0]) }

/-- An engine result on `exNtk3` introducing one new node (id 3) with an
updated cover but a null updated fanin list. -/
def pBadNewFanins : FxuData :=
  let p := Abc_NtkFxuCollectInfo exNtk3 1
  { p with nNodesNew := 1, vSopsNew := p.vSopsNew.set 3 (some ⟨1, 1, 9⟩) }

/-!  ## Proofs -/

lemma Ntk.length_setObj (ntk : Ntk) (i : Nat) (o : Obj) :
    (ntk.setObj i o).objs.length = ntk.objs.length := by
  simp [Ntk.setObj]

lemma Ntk.get?_setObj_self (ntk : Ntk) (i : Nat) (o : Obj)
    (h : i < ntk.objs.length) :
    (ntk.setObj i o).objs.get? i = some (some o) := by
  unfold Ntk.setObj
  rw [List.get?_set_eq_of_lt _ h]

lemma Ntk.get?_setObj_ne (ntk : Ntk) (i j : Nat) (o : Obj) (h : i ≠ j) :
    (ntk.setObj i o).objs.get? j = ntk.objs.get? j := by
  unfold Ntk.setObj
  exact List.get?_set_ne _ _ h

lemma ntkObj_eq_some_iff (ntk : Ntk) (i : Nat) (node : Obj) :
    Abc_NtkObj ntk i = some node ↔ ntk.objs.get? i = some (some node) := by
  unfold Abc_NtkObj
  match h : ntk.objs.get? i with
  | none => simp
  | some none => simp
  | some (some o) => simp

lemma ntkObj_lt_length (ntk : Ntk) (i : Nat) (node : Obj)
    (h : Abc_NtkObj ntk i = some node) : i < ntk.objs.length :=
  (List.get?_eq_some.mp ((ntkObj_eq_some_iff ntk i node).mp h)).1

/-- What a successful run of the create loop (lines 212-217) does: the
network grows by `m` fresh logic nodes in slots
`objs.length, ..., objs.length + m - 1`, every other slot is unchanged, and
when `m > 0` the loop counter `i` must have started at `objs.length`
(otherwise the `assert(i == pNode->Id)` fires). -/
lemma fxuCreateLoop_spec :
    ∀ (m i : Nat) (ntk ntk' : Ntk), fxuCreateLoop ntk i m = some ntk' →
      ntk'.objs.length = ntk.objs.length + m ∧
      (∀ j, j < ntk.objs.length ∨ ntk.objs.length + m ≤ j →
        ntk'.objs.get? j = ntk.objs.get? j) ∧
      (∀ j, ntk.objs.length ≤ j → j < ntk.objs.length + m →
        ntk'.objs.get? j = some (some ⟨j, true, [], none⟩)) ∧
      (0 < m → i = ntk.objs.length) := by
  intro m
  induction m with
  | zero =>
    intro i ntk ntk' h
    unfold fxuCreateLoop at h
    cases h
    refine ⟨rfl, fun j _ => rfl, fun j hlo hhi => absurd (lt_of_le_of_lt hlo hhi) (by omega), fun h0 => absurd h0 (by omega)⟩
  | succ m ih =>
    intro i ntk ntk' h
    unfold fxuCreateLoop at h
    simp only [Abc_NtkCreateNode] at h
    split at h
    case isFalse => exact absurd h (by simp)
    case isTrue hid =>
      have hi : i = ntk.objs.length := hid.symm
      set ntkA : Ntk := ⟨ntk.objs ++ [some ⟨ntk.objs.length, true, [], none⟩]⟩ with hntkA
      have hlenA : ntkA.objs.length = ntk.objs.length + 1 := by simp [hntkA]
      rcases ih (i + 1) ntkA ntk' h with ⟨hlen, hframe, hnew, _⟩
      refine ⟨by omega, ?_, ?_, fun _ => hi⟩
      · intro j hj
        have hframeA : ntk'.objs.get? j = ntkA.objs.get? j := by
          apply hframe
          omega
        rcases hj with hj | hj
        · rw [hframeA, hntkA]
          simp only []
          exact List.get?_append hj
        · rw [hframeA]
          have h1 : ntkA.objs.get? j = none := List.get?_eq_none.mpr (by rw [hlenA]; omega)
          have h2 : ntk.objs.get? j = none := List.get?_eq_none.mpr (by omega)
          rw [h1, h2]
      · intro j hlo hhi
        by_cases hj : j = ntk.objs.length
        · subst hj
          rw [hframe _ (Or.inl (by omega)), hntkA]
          simp only []
          rw [List.get?_append_right (le_refl _)]
          simp
        · apply hnew j (by omega) (by omega)

/-- What a successful run of the fanin-attachment loop (lines 230-234,
245-249) does: the edges of `fl` are appended in order (non-complemented)
to node `nodeId`'s fanin list; length and every other slot are unchanged. -/
lemma fxuAddFanins_spec :
    ∀ (fl : List Nat) (ntk : Ntk) (nodeId : Nat) (node : Obj) (ntk' : Ntk),
      Abc_NtkObj ntk nodeId = some node →
      fxuAddFanins ntk nodeId fl = some ntk' →
      ntk'.objs.length = ntk.objs.length ∧
      (∀ j, j ≠ nodeId → ntk'.objs.get? j = ntk.objs.get? j) ∧
      Abc_NtkObj ntk' nodeId =
        some { node with
          fanins := node.fanins ++ fl.map (fun x => (x, false)) } := by
  intro fl
  induction fl with
  | nil =>
    intro ntk nodeId node ntk' hnode h
    unfold fxuAddFanins at h
    cases h
    refine ⟨rfl, fun j _ => rfl, ?_⟩
    simpa using hnode
  | cons fid rest ih =>
    intro ntk nodeId node ntk' hnode h
    unfold fxuAddFanins at h
    match hfid : Abc_NtkObj ntk fid with
    | none => rw [hfid] at h; exact absurd h (by simp)
    | some fo =>
      rw [hfid, hnode] at h
      set nodeA : Obj := Abc_ObjAddFanin node fid with hnodeA
      set ntkA : Ntk := ntk.setObj nodeId nodeA with hntkA
      have hlt : nodeId < ntk.objs.length := ntkObj_lt_length ntk nodeId node hnode
      have hnodeAget : Abc_NtkObj ntkA nodeId = some nodeA := by
        rw [ntkObj_eq_some_iff]
        exact Ntk.get?_setObj_self ntk nodeId nodeA hlt
      rcases ih ntkA nodeId nodeA ntk' hnodeAget h with ⟨hlen, hframe, hfinal⟩
      refine ⟨by rw [hlen, hntkA, Ntk.length_setObj], ?_, ?_⟩
      · intro j hj
        rw [hframe j hj, hntkA, Ntk.get?_setObj_ne ntk nodeId j nodeA (fun he => hj he.symm)]
      · rw [hfinal, hnodeA]
        unfold Abc_ObjAddFanin
        simp

/-- What a successful run of the old-node update loop (lines 219-237) does
over the index window `i, ..., i+m-1`: slots outside the window are
untouched; a slot inside the window with a null updated fanin list is
untouched; a slot inside the window with a recorded updated fanin list `fl`
holds an object, its fanins become exactly `fl` in order (non-complemented)
and its cover becomes the updated cover, which exists (line 236's
assertion). -/
lemma fxuUpdateOldLoop_spec (p : FxuData) :
    ∀ (m i : Nat) (ntk ntk' : Ntk), fxuUpdateOldLoop p ntk i m = some ntk' →
      ntk'.objs.length = ntk.objs.length ∧
      (∀ j, j < i ∨ i + m ≤ j → ntk'.objs.get? j = ntk.objs.get? j) ∧
      (∀ j, i ≤ j → j < i + m →
        (p.vFaninsNew.get? j = some none →
          ntk'.objs.get? j = ntk.objs.get? j) ∧
        (∀ fl, p.vFaninsNew.get? j = some (some fl) →
          ∃ s node, p.vSopsNew.get? j = some (some s) ∧
            ntk.objs.get? j = some (some node) ∧
            ntk'.objs.get? j = some (some { node with
              fanins := fl.map (fun x => (x, false)), pData := some s }))) := by
  intro m
  induction m with
  | zero =>
    intro i ntk ntk' h
    unfold fxuUpdateOldLoop at h
    cases h
    exact ⟨rfl, fun j _ => rfl,
      fun j hlo hhi => absurd (lt_of_le_of_lt hlo hhi) (by omega)⟩
  | succ m ih =>
    intro i ntk ntk' h
    unfold fxuUpdateOldLoop at h
    match hent : p.vFaninsNew.get? i with
    | none => rw [hent] at h; dsimp only at h; exact absurd h (by simp)
    | some none =>
      rw [hent] at h
      dsimp only at h
      rcases ih (i + 1) ntk ntk' h with ⟨hlen, hframe, heff⟩
      refine ⟨hlen, ?_, ?_⟩
      · intro j hj
        apply hframe
        omega
      · intro j hlo hhi
        by_cases hji : j = i
        · subst hji
          constructor
          · intro _
            exact hframe j (Or.inl (by omega))
          · intro fl hfl
            rw [hent] at hfl
            exact absurd hfl (by simp)
        · exact heff j (by omega) (by omega)
    | some (some fl) =>
      rw [hent] at h
      dsimp only at h
      match hnode : Abc_NtkObj ntk i with
      | none => rw [hnode] at h; dsimp only at h; exact absurd h (by simp)
      | some node =>
        rw [hnode] at h
        dsimp only at h
        have hlt : i < ntk.objs.length := ntkObj_lt_length ntk i node hnode
        have hnodeA : Abc_NtkObj (ntk.setObj i (Abc_ObjRemoveFanins node)) i =
            some (Abc_ObjRemoveFanins node) := by
          rw [ntkObj_eq_some_iff]
          exact Ntk.get?_setObj_self ntk i _ hlt
        match hadd : fxuAddFanins (ntk.setObj i (Abc_ObjRemoveFanins node)) i fl with
        | none => rw [hadd] at h; dsimp only at h; exact absurd h (by simp)
        | some ntk2 =>
          rw [hadd] at h
          dsimp only at h
          rcases fxuAddFanins_spec fl (ntk.setObj i (Abc_ObjRemoveFanins node)) i
            (Abc_ObjRemoveFanins node) ntk2 hnodeA hadd with ⟨hlen2, hframe2, hnode2⟩
          match hsop : p.vSopsNew.get? i with
          | none => rw [hsop] at h; dsimp only at h; exact absurd h (by simp)
          | some none => rw [hsop] at h; dsimp only at h; exact absurd h (by simp)
          | some (some s) =>
            rw [hsop, hnode2] at h
            dsimp only at h
            rcases ih (i + 1) _ ntk' h with ⟨hlen3, hframe3, heff3⟩
            have hlenB : (ntk2.setObj i { Abc_ObjRemoveFanins node with
                fanins := (Abc_ObjRemoveFanins node).fanins ++
                  List.map (fun x => (x, false)) fl,
                pData := some s }).objs.length = ntk.objs.length := by
              rw [Ntk.length_setObj, hlen2, Ntk.length_setObj]
            have hframeB : ∀ j, j ≠ i → (ntk2.setObj i { Abc_ObjRemoveFanins node with
                fanins := (Abc_ObjRemoveFanins node).fanins ++
                  List.map (fun x => (x, false)) fl,
                pData := some s }).objs.get? j = ntk.objs.get? j := by
              intro j hj
              rw [Ntk.get?_setObj_ne ntk2 i j _ (fun he => hj he.symm),
                hframe2 j hj, Ntk.get?_setObj_ne ntk i j _ (fun he => hj he.symm)]
            refine ⟨by rw [hlen3, hlenB], ?_, ?_⟩
            · intro j hj
              rw [hframe3 j (by omega), hframeB j (by omega)]
            · intro j hlo hhi
              by_cases hji : j = i
              · subst hji
                constructor
                · intro hnull
                  rw [hent] at hnull
                  exact absurd hnull (by simp)
                · intro fl2 hfl2
                  rw [hent] at hfl2
                  have hfl2eq : fl2 = fl := (Option.some.inj (Option.some.inj hfl2)).symm
                  subst hfl2eq
                  refine ⟨s, node, hsop, (ntkObj_eq_some_iff ntk j node).mp hnode, ?_⟩
                  rw [hframe3 j (Or.inl (by omega))]
                  have hltB : j < ntk2.objs.length := by
                    rw [hlen2, Ntk.length_setObj]
                    exact hlt
                  rw [Ntk.get?_setObj_self ntk2 j _ hltB]
                  simp [Abc_ObjRemoveFanins]
              · rcases heff3 j (by omega) (by omega) with ⟨hskip, hupd⟩
                constructor
                · intro hnull
                  rw [hskip hnull, hframeB j hji]
                · intro fl2 hfl2
                  rcases hupd fl2 hfl2 with ⟨s2, nodej, hs2, hget, hfinal⟩
                  rw [hframeB j hji] at hget
                  exact ⟨s2, nodej, hs2, hget, hfinal⟩

/-- What a successful run of the new-node setup loop (lines 239-252) does
over the index window `i, ..., i+m-1`: each slot in the window must hold an
object and have a recorded (non-null) updated fanin list and cover
(lines 244 and 251); the list's edges are appended in order to that
object's fanins and the cover installed.  Slots outside the window are
untouched. -/
lemma fxuSetupNewLoop_spec (p : FxuData) :
    ∀ (m i : Nat) (ntk ntk' : Ntk), fxuSetupNewLoop p ntk i m = some ntk' →
      ntk'.objs.length = ntk.objs.length ∧
      (∀ j, j < i ∨ i + m ≤ j → ntk'.objs.get? j = ntk.objs.get? j) ∧
      (∀ j, i ≤ j → j < i + m →
        ∃ fl s node, p.vFaninsNew.get? j = some (some fl) ∧
          p.vSopsNew.get? j = some (some s) ∧
          ntk.objs.get? j = some (some node) ∧
          ntk'.objs.get? j = some (some { node with
            fanins := node.fanins ++ fl.map (fun x => (x, false)),
            pData := some s })) := by
  intro m
  induction m with
  | zero =>
    intro i ntk ntk' h
    unfold fxuSetupNewLoop at h
    cases h
    exact ⟨rfl, fun j _ => rfl,
      fun j hlo hhi => absurd (lt_of_le_of_lt hlo hhi) (by omega)⟩
  | succ m ih =>
    intro i ntk ntk' h
    unfold fxuSetupNewLoop at h
    match hent : p.vFaninsNew.get? i with
    | none => rw [hent] at h; dsimp only at h; exact absurd h (by simp)
    | some none => rw [hent] at h; dsimp only at h; exact absurd h (by simp)
    | some (some fl) =>
      rw [hent] at h
      dsimp only at h
      match hnode : Abc_NtkObj ntk i with
      | none => rw [hnode] at h; dsimp only at h; exact absurd h (by simp)
      | some node =>
        rw [hnode] at h
        dsimp only at h
        have hlt : i < ntk.objs.length := ntkObj_lt_length ntk i node hnode
        match hadd : fxuAddFanins ntk i fl with
        | none => rw [hadd] at h; dsimp only at h; exact absurd h (by simp)
        | some ntk2 =>
          rw [hadd] at h
          dsimp only at h
          rcases fxuAddFanins_spec fl ntk i node ntk2 hnode hadd with
            ⟨hlen2, hframe2, hnode2⟩
          match hsop : p.vSopsNew.get? i with
          | none => rw [hsop] at h; dsimp only at h; exact absurd h (by simp)
          | some none => rw [hsop] at h; dsimp only at h; exact absurd h (by simp)
          | some (some s) =>
            rw [hsop, hnode2] at h
            dsimp only at h
            rcases ih (i + 1) _ ntk' h with ⟨hlen3, hframe3, heff3⟩
            have hlenB : (ntk2.setObj i { node with
                fanins := node.fanins ++ List.map (fun x => (x, false)) fl,
                pData := some s }).objs.length = ntk.objs.length := by
              rw [Ntk.length_setObj, hlen2]
            have hframeB : ∀ j, j ≠ i → (ntk2.setObj i { node with
                fanins := node.fanins ++ List.map (fun x => (x, false)) fl,
                pData := some s }).objs.get? j = ntk.objs.get? j := by
              intro j hj
              rw [Ntk.get?_setObj_ne ntk2 i j _ (fun he => hj he.symm), hframe2 j hj]
            refine ⟨by rw [hlen3, hlenB], ?_, ?_⟩
            · intro j hj
              rw [hframe3 j (by omega), hframeB j (by omega)]
            · intro j hlo hhi
              by_cases hji : j = i
              · subst hji
                refine ⟨fl, s, node, hent, hsop,
                  (ntkObj_eq_some_iff ntk j node).mp hnode, ?_⟩
                rw [hframe3 j (Or.inl (by omega))]
                have hltB : j < ntk2.objs.length := by
                  rw [hlen2]
                  exact hlt
                rw [Ntk.get?_setObj_self ntk2 j _ hltB]
              · rcases heff3 j (by omega) (by omega) with
                  ⟨fl2, s2, nodej, hfl2, hs2, hget, hfinal⟩
                rw [hframeB j hji] at hget
                exact ⟨fl2, s2, nodej, hfl2, hs2, hget, hfinal⟩

/-- A successful `Abc_NtkFxuReconstruct` run decomposes into: the entry
assertion holds and the three phases each succeed in order. -/
lemma reconstruct_parts (ntk : Ntk) (p : FxuData) (ntk' : Ntk)
    (hrec : Abc_NtkFxuReconstruct ntk p = some ntk') :
    ∃ ntk1 ntk2, p.vFanins.length < p.vFaninsNew.length ∧
      fxuCreateLoop ntk p.vFanins.length p.nNodesNew = some ntk1 ∧
      fxuUpdateOldLoop p ntk1 0 p.vFanins.length = some ntk2 ∧
      fxuSetupNewLoop p ntk2 p.vFanins.length p.nNodesNew = some ntk' := by
  unfold Abc_NtkFxuReconstruct at hrec
  split at hrec
  case isFalse => exact absurd hrec (by simp)
  case isTrue hasrt =>
    match hc : fxuCreateLoop ntk p.vFanins.length p.nNodesNew with
    | none => rw [hc] at hrec; exact absurd hrec (by simp)
    | some ntk1 =>
      rw [hc] at hrec
      dsimp only at hrec
      match hu : fxuUpdateOldLoop p ntk1 0 p.vFanins.length with
      | none => rw [hu] at hrec; exact absurd hrec (by simp)
      | some ntk2 =>
        rw [hu] at hrec
        dsimp only at hrec
        exact ⟨ntk1, ntk2, hasrt, rfl, hu, hrec⟩

/-- After a successful reconstruction, a slot of the original domain (below
`vFanins.nSize`) is, before the old-node update phase, the same slot as in
the input network: the create phase only appends beyond the original
domain. -/
lemma reconstruct_create_preserves_old (ntk ntk1 : Ntk) (p : FxuData) (j : Nat)
    (hc : fxuCreateLoop ntk p.vFanins.length p.nNodesNew = some ntk1)
    (hj : j < p.vFanins.length) :
    ntk1.objs.get? j = ntk.objs.get? j := by
  rcases fxuCreateLoop_spec p.nNodesNew p.vFanins.length ntk ntk1 hc with
    ⟨_, hframe, _, hstart⟩
  rcases Nat.eq_zero_or_pos p.nNodesNew with h0 | hpos
  · apply hframe
    omega
  · have hlen := hstart hpos
    apply hframe
    omega

/-- Shared content of claims C4 and C9: after a successful reconstruction,
an original-domain slot with a recorded updated fanin list holds the old
object with its fanins replaced by exactly the updated list (in order,
non-complemented) and its cover replaced by the updated cover, which must
be non-null. -/
lemma reconstruct_old_slot (ntk : Ntk) (p : FxuData) (ntk' : Ntk)
    (j : Nat) (fl : List Nat)
    (hrec : Abc_NtkFxuReconstruct ntk p = some ntk')
    (hj : j < p.vFanins.length)
    (hfl : p.vFaninsNew.get? j = some (some fl)) :
    ∃ s node, p.vSopsNew.get? j = some (some s) ∧
      ntk.objs.get? j = some (some node) ∧
      ntk'.objs.get? j = some (some { node with
        fanins := fl.map (fun x => (x, false)), pData := some s }) := by
  rcases reconstruct_parts ntk p ntk' hrec with ⟨ntk1, ntk2, _, hc, hu, hs⟩
  rcases fxuUpdateOldLoop_spec p p.vFanins.length 0 ntk1 ntk2 hu with
    ⟨_, _, heff⟩
  rcases (heff j (by omega) (by omega)).2 fl hfl with
    ⟨s, node, hsop, hget1, hget2⟩
  rcases fxuSetupNewLoop_spec p p.nNodesNew p.vFanins.length ntk2 ntk' hs with
    ⟨_, hsframe, _⟩
  rw [reconstruct_create_preserves_old ntk ntk1 p j hc hj] at hget1
  exact ⟨s, node, hsop, hget1, by rw [hsframe j (Or.inl hj), hget2]⟩

/-- Shared content of claims C6 and C10: after a successful reconstruction,
every new-node slot (original domain size up to plus `nNodesNew`) holds a
brand-new logic node whose identifier equals its index, whose fanins are
exactly the recorded updated list (which must be non-null), and whose cover
is the recorded updated cover (which must be non-null). -/
lemma reconstruct_new_slot (ntk : Ntk) (p : FxuData) (ntk' : Ntk) (j : Nat)
    (hrec : Abc_NtkFxuReconstruct ntk p = some ntk')
    (hlo : p.vFanins.length ≤ j)
    (hhi : j < p.vFanins.length + p.nNodesNew) :
    ∃ fl s, p.vFaninsNew.get? j = some (some fl) ∧
      p.vSopsNew.get? j = some (some s) ∧
      ntk'.objs.get? j = some (some ⟨j, true, fl.map (fun x => (x, false)), some s⟩) := by
  rcases reconstruct_parts ntk p ntk' hrec with ⟨ntk1, ntk2, _, hc, hu, hs⟩
  have hpos : 0 < p.nNodesNew := by omega
  rcases fxuCreateLoop_spec p.nNodesNew p.vFanins.length ntk ntk1 hc with
    ⟨_, _, hcnew, hcstart⟩
  have hstart := hcstart hpos
  have hnew1 : ntk1.objs.get? j = some (some ⟨j, true, [], none⟩) := by
    apply hcnew j (by omega) (by omega)
  rcases fxuUpdateOldLoop_spec p p.vFanins.length 0 ntk1 ntk2 hu with
    ⟨_, huframe, _⟩
  have hnew2 : ntk2.objs.get? j = some (some ⟨j, true, [], none⟩) := by
    rw [huframe j (by omega)]
    exact hnew1
  rcases fxuSetupNewLoop_spec p p.nNodesNew p.vFanins.length ntk2 ntk' hs with
    ⟨_, _, hseff⟩
  rcases hseff j hlo hhi with ⟨fl, s, node, hfl, hsop, hget, hfinal⟩
  rw [hnew2] at hget
  have hnode : node = ⟨j, true, [], none⟩ :=
    (Option.some.inj (Option.some.inj hget)).symm
  subst hnode
  refine ⟨fl, s, hfl, hsop, ?_⟩
  rw [hfinal]
  simp

/-- Claim C4: for every identifier in the original domain for which the
updated collections record a non-empty updated fanin list,
`Abc_NtkFxuReconstruct` removes all of that node's current fanin edges,
attaches fanin edges in exactly the order of the updated fanin list, and
replaces the node's cover with the updated cover at that identifier. -/
theorem fxuReconstruct_rewires_updated_old (ntk : Ntk) (p : FxuData)
    (ntk' : Ntk) (j : Nat) (fl : List Nat)
    (hrec : Abc_NtkFxuReconstruct ntk p = some ntk')
    (hj : j < p.vFanins.length)
    (hne : fl ≠ [])
    (hfl : p.vFaninsNew.get? j = some (some fl)) :
    ∃ s node, p.vSopsNew.get? j = some (some s) ∧
      ntk.objs.get? j = some (some node) ∧
      ntk'.objs.get? j = some (some { node with
        fanins := fl.map (fun x => (x, false)), pData := some s }) :=
  reconstruct_old_slot ntk p ntk' j fl hrec hj hfl

/-- Witness for claim C4 at the spec's scenario: node 2 of `exNtk3` is
rewired to fanin list `[3]` with the updated cover. -/
theorem fxuReconstruct_rewires_updated_old_witness :
    (Abc_NtkFxuReconstruct exNtk3 pEx = some exNtk3Post ∧
      2 < pEx.vFanins.length ∧ ([3] : List Nat) ≠ [] ∧
      pEx.vFaninsNew.get? 2 = some (some [3])) ∧
    (∃ s node, pEx.vSopsNew.get? 2 = some (some s) ∧
      exNtk3.objs.get? 2 = some (some node) ∧
      exNtk3Post.objs.get? 2 = some (some { node with
        fanins := ([3] : List Nat).map (fun x => (x, false)),
        pData := some s })) :=
  ⟨⟨by decide, by decide, by decide, by decide⟩,
    fxuReconstruct_rewires_updated_old exNtk3 pEx exNtk3Post 2 [3]
      (by decide) (by decide) (by decide) (by decide)⟩

/-- Claim C5: an original-domain identifier with no recorded updated fanin
list is left completely untouched by `Abc_NtkFxuReconstruct`: its slot
(fanins and cover) is identical to before. -/
theorem fxuReconstruct_preserves_untouched (ntk : Ntk) (p : FxuData)
    (ntk' : Ntk) (j : Nat)
    (hrec : Abc_NtkFxuReconstruct ntk p = some ntk')
    (hj : j < p.vFanins.length)
    (hfl : p.vFaninsNew.get? j = some none) :
    ntk'.objs.get? j = ntk.objs.get? j := by
  rcases reconstruct_parts ntk p ntk' hrec with ⟨ntk1, ntk2, _, hc, hu, hs⟩
  rcases fxuUpdateOldLoop_spec p p.vFanins.length 0 ntk1 ntk2 hu with
    ⟨_, _, heff⟩
  rcases fxuSetupNewLoop_spec p p.nNodesNew p.vFanins.length ntk2 ntk' hs with
    ⟨_, hsframe, _⟩
  rw [hsframe j (Or.inl hj), (heff j (by omega) (by omega)).1 hfl,
    reconstruct_create_preserves_old ntk ntk1 p j hc hj]

/-- Witness for claim C5: identifier 0 (primary input B) of `exNtk3` has no
recorded update and is untouched. -/
theorem fxuReconstruct_preserves_untouched_witness :
    (Abc_NtkFxuReconstruct exNtk3 pEx = some exNtk3Post ∧
      0 < pEx.vFanins.length ∧ pEx.vFaninsNew.get? 0 = some none) ∧
    exNtk3Post.objs.get? 0 = exNtk3.objs.get? 0 :=
  ⟨⟨by decide, by decide, by decide⟩,
    fxuReconstruct_preserves_untouched exNtk3 pEx exNtk3Post 0
      (by decide) (by decide) (by decide)⟩

/-- Claim C6: when `nodesNew > 0`, `Abc_NtkFxuReconstruct` creates exactly
`nodesNew` brand-new nodes with consecutive identifiers starting at the
pre-extraction maximum identifier (`vFanins.nSize`, the builder's recorded
`Abc_NtkObjNumMax`), and each new node receives fanin edges in exactly the
order of its updated fanin list and its cover from the updated covers. -/
theorem fxuReconstruct_creates_new_nodes (ntk : Ntk) (p : FxuData)
    (ntk' : Ntk)
    (hrec : Abc_NtkFxuReconstruct ntk p = some ntk')
    (hpos : 0 < p.nNodesNew) :
    ntk.objs.length = p.vFanins.length ∧
    ntk'.objs.length = ntk.objs.length + p.nNodesNew ∧
    (∀ j, p.vFanins.length ≤ j → j < p.vFanins.length + p.nNodesNew →
      ∃ fl s, p.vFaninsNew.get? j = some (some fl) ∧
        p.vSopsNew.get? j = some (some s) ∧
        ntk'.objs.get? j =
          some (some ⟨j, true, fl.map (fun x => (x, false)), some s⟩)) := by
  rcases reconstruct_parts ntk p ntk' hrec with ⟨ntk1, ntk2, _, hc, hu, hs⟩
  rcases fxuCreateLoop_spec p.nNodesNew p.vFanins.length ntk ntk1 hc with
    ⟨hclen, _, _, hcstart⟩
  rcases fxuUpdateOldLoop_spec p p.vFanins.length 0 ntk1 ntk2 hu with
    ⟨hulen, _, _⟩
  rcases fxuSetupNewLoop_spec p p.nNodesNew p.vFanins.length ntk2 ntk' hs with
    ⟨hslen, _, _⟩
  refine ⟨(hcstart hpos).symm, by omega, ?_⟩
  intro j hlo hhi
  exact reconstruct_new_slot ntk p ntk' j hrec hlo hhi

/-- Witness for claim C6 at the spec's scenario: one new node, id 3, with
fanins `[B, C]` and cover `g`. -/
theorem fxuReconstruct_creates_new_nodes_witness :
    (Abc_NtkFxuReconstruct exNtk3 pEx = some exNtk3Post ∧
      0 < pEx.nNodesNew) ∧
    (exNtk3.objs.length = pEx.vFanins.length ∧
    exNtk3Post.objs.length = exNtk3.objs.length + pEx.nNodesNew ∧
    (∀ j, pEx.vFanins.length ≤ j → j < pEx.vFanins.length + pEx.nNodesNew →
      ∃ fl s, pEx.vFaninsNew.get? j = some (some fl) ∧
        pEx.vSopsNew.get? j = some (some s) ∧
        exNtk3Post.objs.get? j =
          some (some ⟨j, true, fl.map (fun x => (x, false)), some s⟩))) :=
  ⟨⟨by decide, by decide⟩,
    fxuReconstruct_creates_new_nodes exNtk3 pEx exNtk3Post
      (by decide) (by decide)⟩

/-- Claim C9: an original-domain identifier with a recorded updated fanin
list but a null updated cover makes `Abc_NtkFxuReconstruct` fail the
line-236 assertion (`none` models the assertion failure): an updated fanin
list for an existing node must be accompanied by an updated cover. -/
theorem fxuReconstruct_missing_old_cover_asserts (ntk : Ntk) (p : FxuData)
    (j : Nat) (fl : List Nat)
    (hj : j < p.vFanins.length)
    (hfl : p.vFaninsNew.get? j = some (some fl))
    (hsop : p.vSopsNew.get? j = some none) :
    Abc_NtkFxuReconstruct ntk p = none := by
  match h : Abc_NtkFxuReconstruct ntk p with
  | none => rfl
  | some ntk' =>
    rcases reconstruct_old_slot ntk p ntk' j fl h hj hfl with
      ⟨s, node, hs, _, _⟩
    rw [hsop] at hs
    exact absurd hs (by simp)

/-- Witness for claim C9: `pBadOldCover` records a fanin list for node 2 of
`exNtk3` but no cover there; reconstruction assert-fails. -/
theorem fxuReconstruct_missing_old_cover_asserts_witness :
    (2 < pBadOldCover.vFanins.length ∧
      pBadOldCover.vFaninsNew.get? 2 = some (some [0]) ∧
      pBadOldCover.vSopsNew.get? 2 = some none) ∧
    Abc_NtkFxuReconstruct exNtk3 pBadOldCover = none :=
  ⟨⟨by decide, by decide, by decide⟩,
    fxuReconstruct_missing_old_cover_asserts exNtk3 pBadOldCover 2 [0]
      (by decide) (by decide) (by decide)⟩

/-- Claim C10: a new-node index (from the original-domain size up to that
size plus `nNodesNew`) whose updated fanin-list entry is null makes
`Abc_NtkFxuReconstruct` crash (line 244 reads the list without a null
check; `none` models the null dereference): every node the engine
introduces must carry a fanin list. -/
theorem fxuReconstruct_missing_new_fanins_crashes (ntk : Ntk) (p : FxuData)
    (j : Nat)
    (hlo : p.vFanins.length ≤ j)
    (hhi : j < p.vFanins.length + p.nNodesNew)
    (hfl : p.vFaninsNew.get? j = some none) :
    Abc_NtkFxuReconstruct ntk p = none := by
  match h : Abc_NtkFxuReconstruct ntk p with
  | none => rfl
  | some ntk' =>
    rcases reconstruct_new_slot ntk p ntk' j h hlo hhi with
      ⟨fl, s, hfl2, _, _⟩
    rw [hfl] at hfl2
    exact absurd hfl2 (by simp)

/-- Witness for claim C10: `pBadNewFanins` introduces one new node (id 3)
with a cover but a null fanin list; reconstruction crashes. -/
theorem fxuReconstruct_missing_new_fanins_crashes_witness :
    (pBadNewFanins.vFanins.length ≤ 3 ∧
      3 < pBadNewFanins.vFanins.length + pBadNewFanins.nNodesNew ∧
      pBadNewFanins.vFaninsNew.get? 3 = some none) ∧
    Abc_NtkFxuReconstruct exNtk3 pBadNewFanins = none :=
  ⟨⟨by decide, by decide, by decide⟩,
    fxuReconstruct_missing_new_fanins_crashes exNtk3 pBadNewFanins 3
      (by decide) (by decide) (by decide)⟩

lemma fxuEligible_iff (node : Obj) :
    fxuEligible node = true ↔
      ∃ s, node.pData = some s ∧ 2 ≤ Abc_SopGetVarNum s ∧
        1 ≤ Abc_SopGetCubeNum s := by
  cases hp : node.pData with
  | none => simp [fxuEligible, hp]
  | some s => simp [fxuEligible, hp]

lemma fxuFaninsEntry_eq_some (o : Option Obj) (fl : List (Nat × Bool)) :
    fxuFaninsEntry o = some fl ↔
      ∃ node s, o = some node ∧ node.isNode = true ∧ node.pData = some s ∧
        2 ≤ Abc_SopGetVarNum s ∧ 1 ≤ Abc_SopGetCubeNum s ∧
        fl = node.fanins := by
  cases o with
  | none => simp [fxuFaninsEntry]
  | some node =>
    by_cases hel : node.isNode && fxuEligible node
    · rcases Bool.and_eq_true_iff.mp hel with ⟨hn, he⟩
      rcases (fxuEligible_iff node).mp he with ⟨s0, hp0, hv0, hc0⟩
      simp only [fxuFaninsEntry, hel, if_true, Option.some.injEq]
      constructor
      · intro h
        exact ⟨node, s0, rfl, hn, hp0, hv0, hc0, h.symm⟩
      · rintro ⟨node2, s2, hn2eq, _, _, _, _, hfl⟩
        obtain rfl : node = node2 := hn2eq
        exact hfl.symm
    · simp only [fxuFaninsEntry, if_neg hel]
      constructor
      · intro h
        exact absurd h (by simp)
      · rintro ⟨node2, s2, hn2eq, hn2, hp2, hv2, hc2, _⟩
        obtain rfl : node = node2 := Option.some.inj hn2eq
        exact absurd (Bool.and_eq_true_iff.mpr
          ⟨hn2, (fxuEligible_iff node).mpr ⟨s2, hp2, hv2, hc2⟩⟩) hel

lemma fxuSopEntry_eq_some (o : Option Obj) (s : Sop) :
    fxuSopEntry o = some s ↔
      ∃ node, o = some node ∧ node.isNode = true ∧ node.pData = some s ∧
        2 ≤ Abc_SopGetVarNum s ∧ 1 ≤ Abc_SopGetCubeNum s := by
  cases o with
  | none => simp [fxuSopEntry]
  | some node =>
    by_cases hel : node.isNode && fxuEligible node
    · rcases Bool.and_eq_true_iff.mp hel with ⟨hn, he⟩
      rcases (fxuEligible_iff node).mp he with ⟨s0, hp0, hv0, hc0⟩
      simp only [fxuSopEntry, hel, if_true]
      constructor
      · intro h
        obtain rfl : s = s0 := by
          rw [hp0] at h
          exact (Option.some.inj h).symm
        exact ⟨node, rfl, hn, hp0, hv0, hc0⟩
      · rintro ⟨node2, hn2eq, _, hp2, _, _⟩
        obtain rfl : node = node2 := Option.some.inj hn2eq
        exact hp2
    · simp only [fxuSopEntry, if_neg hel]
      constructor
      · intro h
        exact absurd h (by simp)
      · rintro ⟨node2, hn2eq, hn2, hp2, hv2, hc2⟩
        obtain rfl : node = node2 := Option.some.inj hn2eq
        exact absurd (Bool.and_eq_true_iff.mpr
          ⟨hn2, (fxuEligible_iff node).mpr ⟨s, hp2, hv2, hc2⟩⟩) hel

/-- Claim C7: `Abc_NtkFxuCollectInfo` places in the original collections,
under the node's own identifier, the cover and fanin list of exactly those
logic nodes whose cover has at least 2 variables and at least 1 cube; any
other identifier holds a null entry. -/
theorem fxuCollectInfo_records_eligible (ntk : Ntk) (nExt j : Nat) :
    (∀ fl, (Abc_NtkFxuCollectInfo ntk nExt).vFanins.get? j = some (some fl) ↔
      ∃ node s, ntk.objs.get? j = some (some node) ∧ node.isNode = true ∧
        node.pData = some s ∧ 2 ≤ Abc_SopGetVarNum s ∧
        1 ≤ Abc_SopGetCubeNum s ∧ fl = node.fanins) ∧
    (∀ s, (Abc_NtkFxuCollectInfo ntk nExt).vSops.get? j = some (some s) ↔
      ∃ node, ntk.objs.get? j = some (some node) ∧ node.isNode = true ∧
        node.pData = some s ∧ 2 ≤ Abc_SopGetVarNum s ∧
        1 ≤ Abc_SopGetCubeNum s) := by
  have hmapF : (Abc_NtkFxuCollectInfo ntk nExt).vFanins.get? j
      = (ntk.objs.get? j).map fxuFaninsEntry := by
    unfold Abc_NtkFxuCollectInfo
    exact List.get?_map _ _ _
  have hmapS : (Abc_NtkFxuCollectInfo ntk nExt).vSops.get? j
      = (ntk.objs.get? j).map fxuSopEntry := by
    unfold Abc_NtkFxuCollectInfo
    exact List.get?_map _ _ _
  constructor
  · intro fl
    rw [hmapF]
    constructor
    · intro h
      rcases Option.map_eq_some'.mp h with ⟨o, hobj, hent⟩
      rcases (fxuFaninsEntry_eq_some o fl).mp hent with
        ⟨node, s, ho, hn, hp, hv, hc, hfl⟩
      subst ho
      exact ⟨node, s, hobj, hn, hp, hv, hc, hfl⟩
    · rintro ⟨node, s, hobj, hn, hp, hv, hc, hfl⟩
      rw [hobj, Option.map_some']
      exact congrArg some
        ((fxuFaninsEntry_eq_some _ _).mpr ⟨node, s, rfl, hn, hp, hv, hc, hfl⟩)
  · intro s
    rw [hmapS]
    constructor
    · intro h
      rcases Option.map_eq_some'.mp h with ⟨o, hobj, hent⟩
      rcases (fxuSopEntry_eq_some o s).mp hent with ⟨node, ho, hn, hp, hv, hc⟩
      subst ho
      exact ⟨node, hobj, hn, hp, hv, hc⟩
    · rintro ⟨node, hobj, hn, hp, hv, hc⟩
      rw [hobj, Option.map_some']
      exact congrArg some
        ((fxuSopEntry_eq_some _ _).mpr ⟨node, rfl, hn, hp, hv, hc⟩)

/-- Claim C8 (amended): `Abc_NtkFxuCollectInfo` sizes the updated
collections to `Abc_NtkObjNumMax + extraCapacity` with every slot null;
when `extraCapacity` is positive the updated-domain size strictly exceeds
the original-domain size, so the reconstructor's entry assertion holds. -/
theorem fxuCollectInfo_sizes_updated (ntk : Ntk) (nExt : Nat)
    (hpos : 0 < nExt) :
    (Abc_NtkFxuCollectInfo ntk nExt).vSopsNew.length
        = Abc_NtkObjNumMax ntk + nExt ∧
    (Abc_NtkFxuCollectInfo ntk nExt).vFaninsNew.length
        = Abc_NtkObjNumMax ntk + nExt ∧
    (∀ j, j < Abc_NtkObjNumMax ntk + nExt →
      (Abc_NtkFxuCollectInfo ntk nExt).vSopsNew.get? j = some none ∧
      (Abc_NtkFxuCollectInfo ntk nExt).vFaninsNew.get? j = some none) ∧
    (Abc_NtkFxuCollectInfo ntk nExt).vFanins.length <
      (Abc_NtkFxuCollectInfo ntk nExt).vFaninsNew.length := by
  refine ⟨by simp [Abc_NtkFxuCollectInfo], by simp [Abc_NtkFxuCollectInfo],
    ?_, ?_⟩
  · intro j hj
    constructor <;>
      simp [Abc_NtkFxuCollectInfo, List.get?_eq_getElem?,
        List.getElem?_replicate, hj]
  · simp only [Abc_NtkFxuCollectInfo, List.length_map, List.length_replicate,
      Abc_NtkObjNumMax]
    omega

/-- Witness for claim C8's amended statement at `exNtk3` with
`extraCapacity = 1`. -/
theorem fxuCollectInfo_sizes_updated_witness :
    0 < 1 ∧
    ((Abc_NtkFxuCollectInfo exNtk3 1).vSopsNew.length
        = Abc_NtkObjNumMax exNtk3 + 1 ∧
    (Abc_NtkFxuCollectInfo exNtk3 1).vFaninsNew.length
        = Abc_NtkObjNumMax exNtk3 + 1 ∧
    (∀ j, j < Abc_NtkObjNumMax exNtk3 + 1 →
      (Abc_NtkFxuCollectInfo exNtk3 1).vSopsNew.get? j = some none ∧
      (Abc_NtkFxuCollectInfo exNtk3 1).vFaninsNew.get? j = some none) ∧
    (Abc_NtkFxuCollectInfo exNtk3 1).vFanins.length <
      (Abc_NtkFxuCollectInfo exNtk3 1).vFaninsNew.length) :=
  ⟨by decide, fxuCollectInfo_sizes_updated exNtk3 1 (by decide)⟩

/-- Counterexample to claim C8 as stated: with `extraCapacity = 0` (a value
the builder accepts), the updated-domain size equals — does not strictly
exceed — the original-domain size, and a conforming engine run that reports
an improvement drives `Abc_NtkFxuReconstruct` into its entry assertion
(`none`). -/
theorem fxuCollectInfo_zero_capacity_assert_fails :
    ¬ ((Abc_NtkFxuCollectInfo exNtkD 0).vFanins.length <
       (Abc_NtkFxuCollectInfo exNtkD 0).vFaninsNew.length) ∧
    Abc_NtkFastExtract Option.some (fun n => n) engineRewireOld exNtkD 0 =
      none :=
  ⟨by decide, by decide⟩

/-- Claim C1 (amended): when the engine reports no beneficial extraction
(result `<= 0`), `Abc_NtkFastExtract` performs no reconstruction and
returns 0; the network it leaves behind is the swept (cleaned-up) converted
network — identical to the input exactly when conversion and cleanup leave
the input unchanged. -/
theorem fastExtract_no_improvement_returns_cleaned (toSop : Ntk → Option Ntk)
    (cleanup : Ntk → Ntk) (engine : FxuData → FxuData × Int)
    (ntk ntk1 : Ntk) (nExt : Nat)
    (hconv : toSop ntk = some ntk1)
    (hcheck : Abc_NtkFxuCheck ntk1 = true)
    (heng : (engine (Abc_NtkFxuCollectInfo (cleanup ntk1) nExt)).2 ≤ 0) :
    Abc_NtkFastExtract toSop cleanup engine ntk nExt =
      some (false, cleanup ntk1) := by
  unfold Abc_NtkFastExtract
  rw [hconv]
  simp only [hcheck, if_true]
  rw [if_neg (by omega)]

/-- Witness for claim C1's amended statement: identity conversion, the
modelled dead-node sweep, and an engine reporting 0 on `exNtkD`. -/
theorem fastExtract_no_improvement_returns_cleaned_witness :
    (Option.some exNtkD = some exNtkD ∧
      Abc_NtkFxuCheck exNtkD = true ∧
      ((fun pd => (pd, (0 : Int)))
        (Abc_NtkFxuCollectInfo (Abc_NtkCleanup exNtkD) 5)).2 ≤ 0) ∧
    Abc_NtkFastExtract Option.some Abc_NtkCleanup
        (fun pd => (pd, (0 : Int))) exNtkD 5 =
      some (false, Abc_NtkCleanup exNtkD) :=
  ⟨⟨rfl, by decide, by decide⟩,
    fastExtract_no_improvement_returns_cleaned Option.some Abc_NtkCleanup
      (fun pd => (pd, (0 : Int))) exNtkD exNtkD 5 rfl (by decide) (by decide)⟩

/-- Counterexample to claim C1 as stated: on `exNtkD` (which carries a
dangling logic node) with an engine reporting no improvement, the driver
returns 0 but the network after the call is `exNtkDClean`, which differs
from the network before the call — the pre-engine sweep at line 76 removed
the dangling node. -/
theorem fastExtract_no_improvement_changes_network :
    Abc_NtkFastExtract Option.some Abc_NtkCleanup
        (fun pd => (pd, (0 : Int))) exNtkD 5 =
      some (false, exNtkDClean) ∧
    exNtkDClean ≠ exNtkD :=
  ⟨by decide, by decide⟩

/-- Claim C2: when validation fails on a network the conversion step leaves
unchanged, `Abc_NtkFastExtract` returns 0 and the network is byte-for-byte
unchanged, whatever the cleanup and engine collaborators would do — the
decline happens before any mutation (cleanup is never reached). -/
theorem fastExtract_check_fail_unchanged (toSop : Ntk → Option Ntk)
    (cleanup : Ntk → Ntk) (engine : FxuData → FxuData × Int)
    (ntk : Ntk) (nExt : Nat)
    (hconv : toSop ntk = some ntk)
    (hcheck : Abc_NtkFxuCheck ntk = false) :
    Abc_NtkFastExtract toSop cleanup engine ntk nExt = some (false, ntk) := by
  unfold Abc_NtkFastExtract
  rw [hconv]
  simp [hcheck]

/-- Witness for claim C2: `exNtkBad` (node 1 has duplicated fanins) is
declined unchanged, even under an engine that would claim an improvement. -/
theorem fastExtract_check_fail_unchanged_witness :
    (Option.some exNtkBad = some exNtkBad ∧
      Abc_NtkFxuCheck exNtkBad = false) ∧
    Abc_NtkFastExtract Option.some Abc_NtkCleanup
        (fun pd => (pd, (1 : Int))) exNtkBad 5 =
      some (false, exNtkBad) :=
  ⟨⟨rfl, by decide⟩,
    fastExtract_check_fail_unchanged Option.some Abc_NtkCleanup
      (fun pd => (pd, (1 : Int))) exNtkBad 5 rfl (by decide)⟩

lemma checkObj_false_iff (node : Obj) :
    Abc_NtkFxuCheckObj node = false ↔ NodeViolation node := by
  constructor
  · intro h
    rcases Bool.eq_false_iff.mp h with hne
    by_contra hviol
    apply hne
    unfold Abc_NtkFxuCheckObj
    rw [List.all_eq_true]
    intro i hi
    rw [List.mem_range] at hi
    rcases List.get?_eq_get (by simpa using hi) with hget
    apply Bool.and_eq_true_iff.mpr
    constructor
    · rw [Bool.not_eq_true']
      by_contra hb
      rw [Bool.not_eq_false] at hb
      rcases Bool.and_eq_true_iff.mp hb with ⟨hlt, hc⟩
      apply hviol
      left
      refine ⟨i, node.fanins.get ⟨i, by simpa using hi⟩, hget, by simpa using hlt, ?_⟩
      unfold Abc_ObjFaninC at hc
      rw [hget] at hc
      simpa using hc
    · rw [List.all_eq_true]
      intro k hk
      rw [List.mem_range] at hk
      by_cases hik : i = k
      · simp [hik]
      · apply Bool.or_eq_true_iff.mpr
        right
        rw [Bool.not_eq_true']
        rw [decide_eq_false_iff_not]
        intro heq
        apply hviol
        right
        rcases List.get?_eq_get (show k < node.fanins.length by simpa using hk) with hgetk
        refine ⟨i, k, node.fanins.get ⟨i, by simpa using hi⟩,
          node.fanins.get ⟨k, by simpa using hk⟩, hik, hget, hgetk, ?_⟩
        unfold Abc_ObjFaninId at heq
        rw [hget, hgetk] at heq
        simpa using heq
  · intro hviol
    rw [Bool.eq_false_iff]
    intro hall
    unfold Abc_NtkFxuCheckObj at hall
    rw [List.all_eq_true] at hall
    rcases hviol with ⟨i, e, hget, hlt, hc⟩ | ⟨i, k, e1, e2, hik, hget1, hget2, heq⟩
    · have hi : i < node.fanins.length := List.get?_eq_some.mp hget |>.1
      have := hall i (List.mem_range.mpr hi)
      rcases Bool.and_eq_true_iff.mp this with ⟨h1, _⟩
      rw [Bool.not_eq_true'] at h1
      rcases Bool.and_eq_false_iff.mp h1 with h | h
      · simp [hlt] at h
      · unfold Abc_ObjFaninC at h
        rw [hget] at h
        simp [hc] at h
    · have hi : i < node.fanins.length := List.get?_eq_some.mp hget1 |>.1
      have hk : k < node.fanins.length := List.get?_eq_some.mp hget2 |>.1
      have := hall i (List.mem_range.mpr hi)
      rcases Bool.and_eq_true_iff.mp this with ⟨_, h2⟩
      rw [List.all_eq_true] at h2
      have := h2 k (List.mem_range.mpr hk)
      rcases Bool.or_eq_true_iff.mp this with h | h
      · exact hik (by simpa using h)
      · rw [Bool.not_eq_true'] at h
        rw [decide_eq_false_iff_not] at h
        apply h
        unfold Abc_ObjFaninId
        rw [hget1, hget2]
        simpa using heq

/-- Claim C3: `Abc_NtkFxuCheck` returns false iff some logic node has an
inverted-polarity fanin in positional slot 0 or 1, or two distinct fanin
slots referencing the same target node; otherwise it returns true. -/
theorem fxuCheck_false_iff_violation (ntk : Ntk) :
    Abc_NtkFxuCheck ntk = false ↔ NtkViolation ntk := by
  constructor
  · intro h
    rcases Bool.eq_false_iff.mp h with hne
    by_contra hviol
    apply hne
    unfold Abc_NtkFxuCheck
    rw [List.all_eq_true]
    intro i hi
    rw [List.mem_range] at hi
    match hobj : ntk.objs.get? i with
    | none => simp
    | some none => simp
    | some (some node) =>
      simp only []
      by_cases hn : node.isNode
      · rw [Bool.or_eq_true_iff]
        right
        by_contra hcheck
        rw [Bool.not_eq_true, checkObj_false_iff] at hcheck
        exact hviol ⟨i, node, hobj, hn, hcheck⟩
      · simp [hn]
  · intro hviol
    rcases hviol with ⟨i, node, hobj, hn, hnode⟩
    rw [Bool.eq_false_iff]
    intro hall
    unfold Abc_NtkFxuCheck at hall
    rw [List.all_eq_true] at hall
    have hi : i < ntk.objs.length := List.get?_eq_some.mp hobj |>.1
    have := hall i (List.mem_range.mpr hi)
    rw [hobj] at this
    simp only [hn] at this
    rcases Bool.or_eq_true_iff.mp this with h | h
    · simp at h
    · rw [← Bool.not_eq_false, checkObj_false_iff] at h
      exact h hnode


end AbcFxu
